import Mathlib

/-!
Shallow embedding of the data normalization and geocoding pipeline of
`src/js/data-loader.js` (class `DataLoader`), together with theorems
checking the specification's claims about it.

Conventions used throughout the embedding:
* JS strings are Lean `String`s; a "falsy" string is the empty string.
* JS `Map` objects are association lists in insertion order; `Map.set` on an
  existing key updates the value in place, otherwise appends at the end.
* JS objects used as string-keyed dictionaries (`regionStats`, `serviceTypes`,
  `byYear`) are also association lists in insertion order, since all keys in
  play are non-numeric strings and ES2015 guarantees insertion order for them.
* `localStorage` is a single slot `Option (List (String × Option Coord))`;
  `JSON.stringify`/`JSON.parse` of an array of key/value pairs round-trips
  exactly for the shapes stored here, so serialization is modelled as the
  identity on that list.
* The external Google geocoding service is a parameter
  `svc : String → Option Coord`: `none` models a non-`OK` status or an empty
  result list (the code resolves `null` in that case, it never rejects).
  `google : Bool` models availability of `window.google`.
* Asynchronous completion order of the concurrent per-year loads in
  `loadAllYearsData` is a parameter `order : List String`, a permutation of
  the fixed year list; each year's continuation (its `byYear` assignment and
  its pushes onto `combined`) runs atomically at its completion point, ordered
  by `order`, since JS is single-threaded and the continuation contains no
  further suspension point.
* Coordinates are fixed-point integers (ten-thousandths of a degree), since
  the program stores and compares them but never computes with them.
  Percentage arithmetic is modelled over `ℚ`;
  `Number.prototype.toFixed(1)` is rounding to tenths (ties away from zero,
  which for the non-negative values arising here agrees with `round`), and a
  JS comparison of the resulting numeric string against a number coincides
  with the comparison of the rounded rational. The non-finite values a zero
  denominator produces are modelled by an explicit test: `num / 0` with
  `num ≠ 0` is `Infinity`, which exceeds every bound, while `0 / 0` is `NaN`,
  against which every JS comparison is false.
-/

/-- Whitespace class of the JS regexes `\s` restricted to the ASCII range
(space, tab, line feed, vertical tab, form feed, carriage return). -/
def isWs (c : Char) : Bool :=
  c = ' ' || c = '\t' || c = '\n' || c = '\x0b' || c = '\x0c' || c = '\r'

/-- Both-ends whitespace trim, the model of `String.prototype.trim()`. -/
def jsTrimList (l : List Char) : List Char :=
  ((l.dropWhile isWs).reverse.dropWhile isWs).reverse

/-- String form of `jsTrimList`. -/
def jsTrim (s : String) : String :=
  ⟨jsTrimList s.data⟩

/-- Model of `address.replace(/\n/g, ', ')`: every line feed becomes a comma
and a space. -/
def replaceNewlines (l : List Char) : List Char :=
  l.flatMap (fun c => if c = '\n' then [',', ' '] else [c])

/-- Scanner for `replace(/,\s*,/g, ',')`. The first argument is `none` while
no match is in progress, and `some buf` after an initial comma with `buf` the
whitespace read so far (in reverse). A match can only start at a comma, and
after a successful match scanning resumes directly after the matched text, so
this left-to-right scan reproduces the JS global-replace semantics. -/
def collapseCommasAux : Option (List Char) → List Char → List Char
  | none, [] => []
  | none, c :: rest =>
    if c = ',' then collapseCommasAux (some []) rest
    else c :: collapseCommasAux none rest
  | some buf, [] => ',' :: buf.reverse
  | some buf, c :: rest =>
    if c = ',' then ',' :: collapseCommasAux none rest
    else if isWs c then collapseCommasAux (some (c :: buf)) rest
    else ',' :: (buf.reverse ++ c :: collapseCommasAux none rest)

/-- Model of `.replace(/,\s*,/g, ',')`. -/
def collapseDoubleCommas (l : List Char) : List Char :=
  collapseCommasAux none l

/-- Model of `.replace(/,\s*$/, '')`: drop one final comma together with the
whitespace following it, when the string ends that way; otherwise unchanged. -/
def stripTrailingComma (l : List Char) : List Char :=
  match (l.reverse.dropWhile isWs) with
  | ',' :: rest => rest.reverse
  | _ => l

/-- Embedding of `DataLoader.cleanAddress`: trim, collapse embedded newlines
to `", "`, collapse comma-whitespace-comma runs, strip a trailing comma. -/
def cleanAddress (address : String) : String :=
  if address = "" then ""
  else ⟨stripTrailingComma (collapseDoubleCommas (replaceNewlines (jsTrimList address.data)))⟩

/-- Substring occurrence, the model of `String.prototype.includes`. -/
def containsSub (needle hay : String) : Bool :=
  decide (needle.data <:+: hay.data)

/-- Model of `String.prototype.toUpperCase` (the addresses in play are
ASCII, where JS and Unicode simple upper-casing agree). -/
def jsToUpper (s : String) : String :=
  ⟨s.data.map Char.toUpper⟩

/-- Model of `String.prototype.toLowerCase` on ASCII strings. -/
def jsToLower (s : String) : String :=
  ⟨s.data.map Char.toLower⟩

/-- Keys of the `stateMap` table of `DataLoader.extractState`, in its fixed
object-literal order. -/
def stateKeys : List String :=
  ["NSW", "QLD", "VIC", "SA", "WA", "TAS", "NT", "ACT"]

/-- Embedding of `DataLoader.extractState`: first state abbreviation (in
`stateKeys` order) occurring in the upper-cased address; otherwise the
"singapore" / "dubai" checks on the lower-cased address; otherwise
`"Unknown"`. -/
def extractState (address : String) : String :=
  if address = "" then "Unknown"
  else
    match stateKeys.find? (fun k => containsSub k (jsToUpper address)) with
    | some k => k
    | none =>
      if containsSub "singapore" (jsToLower address) then "Singapore"
      else if containsSub "dubai" (jsToLower address) then "Dubai"
      else "Unknown"

/-- Embedding of `DataLoader.determineMapDisplayType`. -/
def determineMapDisplayType (hasClientAddress hasPropertyAddress : Bool) : String :=
  if hasClientAddress && hasPropertyAddress then "both"
  else if hasClientAddress && !hasPropertyAddress then "client-only"
  else "skip"

/-- A raw CSV row as produced by the parsing collaborator: all eight columns
as trimmed strings, with `""` standing for a missing or empty field. -/
structure RawRow where
  Name : String
  Address : String
  PropertyPurchased : String
  TypeOfService : String
  DateSigned : String
  DateOfPurchase : String
  Email : String
  Notes : String
deriving DecidableEq

/-- A record after the cleaning map of `DataLoader.processData`, before
geocoding. -/
structure CleanRecord where
  name : String
  clientAddress : String
  propertyAddress : String
  serviceType : String
  dateSigned : String
  datePurchase : String
  email : String
  notes : String
  clientState : String
  propertyState : String
  hasClientLocation : Bool
  hasPropertyLocation : Bool
  mapDisplayType : String
  year : Option String
deriving DecidableEq

/-- Truthiness of `row.Address && row.Address.trim() && row.Address !== 'No
address in contract'`. -/
def hasClientAddressOf (row : RawRow) : Bool :=
  row.Address ≠ "" && jsTrim row.Address ≠ "" && row.Address ≠ "No address in contract"

/-- Truthiness of `row['Property Purchased'] && row['Property
Purchased'].trim()`. -/
def hasPropertyAddressOf (row : RawRow) : Bool :=
  row.PropertyPurchased ≠ "" && jsTrim row.PropertyPurchased ≠ ""

/-- Model of `s?.trim() || d`. -/
def trimOr (s d : String) : String :=
  if jsTrim s = "" then d else jsTrim s

/-- The cleaning map of `DataLoader.processData`, one row. -/
def cleanRow (year : Option String) (row : RawRow) : CleanRecord :=
  let hasClientAddress := hasClientAddressOf row
  let hasPropertyAddress := hasPropertyAddressOf row
  { name := trimOr row.Name "Unknown"
    clientAddress := if hasClientAddress then cleanAddress row.Address else ""
    propertyAddress := if hasPropertyAddress then cleanAddress row.PropertyPurchased else ""
    serviceType := trimOr row.TypeOfService "Unknown"
    dateSigned := jsTrim row.DateSigned
    datePurchase := jsTrim row.DateOfPurchase
    email := jsTrim row.Email
    notes := jsTrim row.Notes
    clientState := if hasClientAddress then extractState row.Address else "Unknown"
    propertyState := if hasPropertyAddress then extractState row.PropertyPurchased else "Unknown"
    hasClientLocation := hasClientAddress
    hasPropertyLocation := hasPropertyAddress
    mapDisplayType := determineMapDisplayType hasClientAddress hasPropertyAddress
    year := year }

/-- Filter-and-map stage of `DataLoader.processData` (everything before
`addGeocoding`). -/
def processDataClean (year : Option String) (rawData : List RawRow) : List CleanRecord :=
  (rawData.filter (fun row => row.Name ≠ "" && jsTrim row.Name ≠ "")).map (cleanRow year)


/-- A latitude/longitude pair. The coordinates appearing in the program are
decimal numbers with at most four fraction digits and are never computed
with, only stored and compared, so they are modelled in fixed point: an
integer count of ten-thousandths of a degree. -/
structure Coord where
  lat : ℤ
  lng : ℤ
deriving DecidableEq

/-- JS `Map.prototype.set`: update in place when the key is present (keeping
its position), otherwise append at the end. -/
def mapSet {α : Type} (m : List (String × α)) (k : String) (v : α) : List (String × α) :=
  match m with
  | [] => [(k, v)]
  | (k', v') :: rest => if k' = k then (k, v) :: rest else (k', v') :: mapSet rest k v

/-- JS `new Map(entries)`: a fold of `Map.set` over the entry list. -/
def ofEntries {α : Type} (l : List (String × α)) : List (String × α) :=
  l.foldl (fun m p => mapSet m p.1 p.2) []

/-- State owned by a `DataLoader` instance that geocoding touches: the
in-memory `geocodeCache` `Map` (values can be `null`, hence `Option Coord`)
and the `localStorage` slot named `geocodeCache`. -/
structure GeoState where
  geocodeCache : List (String × Option Coord)
  storage : Option (List (String × Option Coord))
deriving DecidableEq

/-- Embedding of `DataLoader.loadGeocodeCache`: `new Map(JSON.parse(slot))`
when the slot is present, the empty map when it is absent (or unreadable,
the catch branch). -/
def loadGeocodeCache (storage : Option (List (String × Option Coord))) :
    List (String × Option Coord) :=
  match storage with
  | none => []
  | some entries => ofEntries entries

/-- Embedding of `DataLoader.saveGeocodeCache` acting on the storage slot:
`setItem('geocodeCache', JSON.stringify([...cache]))`, for the case where the
write succeeds (a failed write would leave the slot unchanged and only log). -/
def saveGeocodeCache (cache : List (String × Option Coord)) :
    Option (List (String × Option Coord)) :=
  some cache

/-- Result of one `geocodeAddress` call: the value the promise resolves with,
the updated loader state, and whether the external service was invoked. -/
structure GeoOutcome where
  result : Option Coord
  state : GeoState
  invoked : Bool
deriving DecidableEq

/-- Embedding of `DataLoader.geocodeAddress`. `google` is the truthiness of
`window.google`; `svc` is the external geocoder, whose `none` models a
non-`OK` status or empty result list (the promise resolves `null` then — it
never rejects, so the catch branch is unreachable from the lookup itself). -/
def geocodeAddress (google : Bool) (svc : String → Option Coord) (st : GeoState)
    (address : String) : GeoOutcome :=
  if address = "" || !google then ⟨none, st, false⟩
  else
    let cacheKey := jsToLower address
    match st.geocodeCache.lookup cacheKey with
    | some cached => ⟨cached, st, false⟩
    | none =>
      let result := svc address
      let cache := mapSet st.geocodeCache cacheKey result
      ⟨result, ⟨cache, saveGeocodeCache cache⟩, true⟩

/-- The `fallbackCoords` table of the `DataLoader` constructor. -/
def fallbackCoords : List (String × Coord) :=
  [("NSW", ⟨-338688, 1512093⟩),
   ("QLD", ⟨-274698, 1530251⟩),
   ("VIC", ⟨-378136, 1449631⟩),
   ("SA", ⟨-349285, 1386007⟩),
   ("WA", ⟨-319505, 1158605⟩),
   ("TAS", ⟨-428821, 1473272⟩),
   ("NT", ⟨-124634, 1308456⟩),
   ("ACT", ⟨-352809, 1491300⟩),
   ("Singapore", ⟨13521, 1038198⟩),
   ("Dubai", ⟨252048, 552708⟩),
   ("Unknown", ⟨-252744, 1337751⟩)]

/-- JS `a || b` on nullable coordinate values: the first operand unless it is
`null`/`undefined` (an object is always truthy). -/
def jsOr (a b : Option Coord) : Option Coord :=
  match a with
  | some v => some v
  | none => b

/-- A fully processed record: the cleaned fields plus the spread-in
`clientCoords`, `propertyCoords` and `isInterstate` of
`DataLoader.addGeocoding`. -/
structure GeoRecord extends CleanRecord where
  clientCoords : Option Coord
  propertyCoords : Option Coord
  isInterstate : Bool
deriving DecidableEq

/-- One iteration of the `addGeocoding` loop body on a single record,
threading the loader state through the two `geocodeAddress` awaits. -/
def geocodeRow (google : Bool) (svc : String → Option Coord) (st : GeoState)
    (row : CleanRecord) : GeoRecord × GeoState :=
  let client :=
    if row.hasClientLocation && row.clientAddress ≠ "" then
      let r := geocodeAddress google svc st row.clientAddress
      (jsOr (jsOr r.result (fallbackCoords.lookup row.clientState))
        (fallbackCoords.lookup "Unknown"), r.state)
    else (none, st)
  let property :=
    if row.hasPropertyLocation && row.propertyAddress ≠ "" then
      let r := geocodeAddress google svc client.2 row.propertyAddress
      (jsOr (jsOr r.result (fallbackCoords.lookup row.propertyState))
        (fallbackCoords.lookup "Unknown"), r.state)
    else (none, client.2)
  ({ toCleanRecord := row
     clientCoords := client.1
     propertyCoords := property.1
     isInterstate := row.clientState ≠ "Unknown" && row.propertyState ≠ "Unknown" &&
       row.clientState ≠ row.propertyState }, property.2)

/-- Embedding of `DataLoader.addGeocoding`: the sequential for-await loop
over the cleaned records. -/
def addGeocoding (google : Bool) (svc : String → Option Coord) (st : GeoState) :
    List CleanRecord → List GeoRecord × GeoState
  | [] => ([], st)
  | row :: rest =>
    let p := geocodeRow google svc st row
    let q := addGeocoding google svc p.2 rest
    (p.1 :: q.1, q.2)

/-- Embedding of `DataLoader.processData`: clean, then geocode. The `year`
argument defaults to `null` (`none`) in the source. -/
def processData (google : Bool) (svc : String → Option Coord) (year : Option String)
    (st : GeoState) (rawData : List RawRow) : List GeoRecord × GeoState :=
  addGeocoding google svc st (processDataClean year rawData)

/-- Embedding of the single-year path of `DataLoader.loadYearData` (the
`year !== 'all'` branch). `rawOf` composes the fetch of `data/year.csv` with
the CSV parse: `none` models a failed fetch (the thrown error is logged and
rethrown, so the whole call fails, modelled by a `none` result); `some raw`
is the parsed row list. Returns the processed records together with the
updated geocoding state and per-year cache. -/
def loadYearData (google : Bool) (svc : String → Option Coord) (st : GeoState)
    (cache : List (String × List GeoRecord)) (rawOf : String → Option (List RawRow))
    (year : String) :
    Option (List GeoRecord × GeoState × List (String × List GeoRecord)) :=
  match cache.lookup year with
  | some processed => some (processed, st, cache)
  | none =>
    match rawOf year with
    | none => none
    | some raw =>
      let p := processData google svc (some year) st raw
      some (p.1, p.2, mapSet cache year p.1)

/-- The fixed year list of `DataLoader.loadAllYearsData`. -/
def fixedYears : List String :=
  ["2022", "2023", "2024", "2025"]

/-- Model of the record spread `{...record, year: year}` performed on each
record pushed onto `combined`. -/
def stampYear (year : String) (r : GeoRecord) : GeoRecord :=
  { r with year := some year }

/-- Result shape of `DataLoader.loadAllYearsData`. -/
structure AllYearsData where
  combined : List GeoRecord
  byYear : List (String × List GeoRecord)
deriving DecidableEq

/-- Embedding of `DataLoader.loadAllYearsData`. `outcome` gives each year's
`loadYearData` result (`none` when that load threw); `order` is the, as far
as this function is concerned arbitrary, completion order of the concurrent
per-year promises. At its completion point each year's continuation runs
atomically: on success it assigns `byYear[year]` and pushes the year-stamped
records onto `combined`; on failure the catch assigns `byYear[year] = []` and
pushes nothing. The promise produced by `Promise.all` never rejects, so the
function is total. -/
def loadAllYearsData (outcome : String → Option (List GeoRecord)) :
    List String → AllYearsData
  | [] => ⟨[], []⟩
  | year :: rest =>
    let tail := loadAllYearsData outcome rest
    match outcome year with
    | some yearData =>
      ⟨yearData.map (stampYear year) ++ tail.combined, (year, yearData) :: tail.byYear⟩
    | none =>
      ⟨tail.combined, (year, []) :: tail.byYear⟩

/-- Per-region counters of `analytics.regionStats`. -/
structure RegionStat where
  clients : Nat
  properties : Nat
deriving DecidableEq

/-- Model of the client-side bump `regionStats[state] = (regionStats[state]
?? {clients: 0, properties: 0})` followed by `.clients++`, preserving
first-seen insertion order of the JS object. -/
def bumpClients (stats : List (String × RegionStat)) (k : String) :
    List (String × RegionStat) :=
  match stats with
  | [] => [(k, ⟨1, 0⟩)]
  | (k', s) :: rest =>
    if k' = k then (k', { s with clients := s.clients + 1 }) :: rest
    else (k', s) :: bumpClients rest k

/-- Same as `bumpClients` for the `properties` counter. -/
def bumpProperties (stats : List (String × RegionStat)) (k : String) :
    List (String × RegionStat) :=
  match stats with
  | [] => [(k, ⟨0, 1⟩)]
  | (k', s) :: rest =>
    if k' = k then (k', { s with properties := s.properties + 1 }) :: rest
    else (k', s) :: bumpProperties rest k

/-- The regional-statistics forEach of `DataLoader.generateAnalytics`: every
record bumps its client region; records whose property region is truthy and
not `"Unknown"` also bump that region's property count. -/
def buildRegionStats (data : List GeoRecord) : List (String × RegionStat) :=
  data.foldl
    (fun stats row =>
      let stats1 := bumpClients stats row.clientState
      if row.propertyState ≠ "" && row.propertyState ≠ "Unknown" then
        bumpProperties stats1 row.propertyState
      else stats1)
    []

/-- Combined count a region is ranked by. -/
def totalOf (p : String × RegionStat) : Nat :=
  p.2.clients + p.2.properties

/-- Stable insertion into a list sorted by descending `totalOf`: the new
element `x` comes from earlier in the original entry order than every element
already inserted, so it is placed before any element of equal rank. -/
def insertDesc (x : String × RegionStat) :
    List (String × RegionStat) → List (String × RegionStat)
  | [] => [x]
  | y :: ys => if totalOf y ≤ totalOf x then x :: y :: ys else y :: insertDesc x ys

/-- Model of `Object.entries(regionStats).sort(([,a],[,b]) => (b.clients +
b.properties) - (a.clients + a.properties))`: ES2019 requires `sort` to be
stable, and for a comparator that is a total preorder every stable sort
computes the same list, so a stable insertion sort is a faithful embedding. -/
def sortByTotalDesc (l : List (String × RegionStat)) : List (String × RegionStat) :=
  l.foldr insertDesc []

/-- Embedding of the `topRegion` computation of `generateAnalytics`: first
entry of the sorted entries, `"N/A"` when there are none. -/
def topRegion (stats : List (String × RegionStat)) : String :=
  match (sortByTotalDesc stats).head? with
  | some p => p.1
  | none => "N/A"

/-- The count bump `serviceTypes[t] = (serviceTypes[t] || 0) + 1`. -/
def bumpCount (m : List (String × Nat)) (k : String) : List (String × Nat) :=
  match m with
  | [] => [(k, 1)]
  | (k', n) :: rest =>
    if k' = k then (k', n + 1) :: rest else (k', n) :: bumpCount rest k

/-- An insight's tag and title. The interpolated `message` strings are
presentation text and are not modelled. -/
structure Insight where
  type : String
  title : String
deriving DecidableEq

/-- Value, over `ℚ`, of `(num / den * 100).toFixed(1)` for natural counts
with `den ≠ 0`: the percentage rounded to one decimal. The zero-denominator
cases of the JS computation are non-finite and are handled in `rateGtB`. -/
def rate1 (num den : Nat) : ℚ :=
  (round ((num : ℚ) / (den : ℚ) * 100 * 10) : ℤ) / 10

/-- Truth value of the JS comparison `(num / den * 100).toFixed(1) > bound`
for natural counts. For a non-zero denominator this compares the rounded
percentage with the bound. For a zero denominator the JS quotient is
non-finite: `num / 0` with `num ≠ 0` is `Infinity`, `toFixed` renders it
`"Infinity"`, and `"Infinity" > bound` coerces back to `Infinity`, so the
comparison is true; `0 / 0` is `NaN`, rendered `"NaN"`, and every comparison
against `NaN` is false. -/
def rateGtB (num den : Nat) (bound : ℚ) : Bool :=
  if den = 0 then num ≠ 0 else decide (rate1 num den > bound)

/-- The interstate-investment insight header. -/
def interstateInsight : Insight :=
  ⟨"info", "Strong Interstate Investment"⟩

/-- Embedding of `DataLoader.generateInsights`. The arguments are the fields
of the partially built `analytics` object the source reads, plus the record
list used by the international-clients rule. -/
def generateInsights (data : List GeoRecord) (totalClients totalProperties interstateSales : Nat)
    (serviceTypes : List (String × Nat)) (regionStats : List (String × RegionStat)) :
    List Insight :=
  let interstate : List Insight :=
    if rateGtB interstateSales totalProperties 30 then
      [interstateInsight]
    else []
  let nswClients := ((regionStats.lookup "NSW").map RegionStat.clients).getD 0
  let qldProperties := ((regionStats.lookup "QLD").map RegionStat.properties).getD 0
  let flow : List Insight :=
    if nswClients > 0 ∧ qldProperties > 0 then
      [⟨"positive", "NSW to QLD Investment Flow"⟩]
    else []
  let investmentCount := (serviceTypes.lookup "Investment").getD 0
  let investors : List Insight :=
    if rateGtB investmentCount totalClients 70 then
      [⟨"positive", "Investment-Focused Client Base"⟩]
    else []
  let internationalClients :=
    (data.filter (fun d => d.clientState = "Singapore" || d.clientState = "Dubai")).length
  let intl : List Insight :=
    if internationalClients > 0 then
      [⟨"info", "International Client Interest"⟩]
    else []
  interstate ++ flow ++ investors ++ intl

/-- Result shape of `DataLoader.generateAnalytics`. -/
structure Analytics where
  totalClients : Nat
  totalProperties : Nat
  interstateSales : Nat
  serviceTypes : List (String × Nat)
  regionStats : List (String × RegionStat)
  topRegion : String
  insights : List Insight
deriving DecidableEq

/-- Embedding of `DataLoader.generateAnalytics`. -/
def generateAnalytics (data : List GeoRecord) : Analytics :=
  let totalClients := data.length
  let totalProperties := (data.filter (fun d => d.propertyAddress ≠ "")).length
  let interstateSales := (data.filter (fun d => d.isInterstate)).length
  let serviceTypes := data.foldl (fun m r => bumpCount m r.serviceType) []
  let regionStats := buildRegionStats data
  { totalClients := totalClients
    totalProperties := totalProperties
    interstateSales := interstateSales
    serviceTypes := serviceTypes
    regionStats := regionStats
    topRegion := topRegion regionStats
    insights := generateInsights data totalClients totalProperties interstateSales
      serviceTypes regionStats }

/-- Specification-side selection used to check `topRegion` against the
spec's description: the entry whose `clients + properties` is maximal, ties
resolved to the entry occurring first in the list (first-seen insertion
order), `"N/A"` on the empty list. -/
def pickLater (best y : String × RegionStat) : String × RegionStat :=
  if totalOf best < totalOf y then y else best

/-- First maximal entry of a non-empty entry list. -/
def firstMax? : List (String × RegionStat) → Option (String × RegionStat)
  | [] => none
  | x :: xs => some (xs.foldl pickLater x)

/-- Specification-side counterpart of `topRegion`, written from the claim's
words: the region with maximum combined count, ties broken by first-seen
insertion order, `"N/A"` when no regions exist. -/
def specTopRegion (stats : List (String × RegionStat)) : String :=
  match firstMax? stats with
  | some p => p.1
  | none => "N/A"

/-- A minimal processed record, used as concrete test data. -/
def mkSampleRec (n : String) : GeoRecord :=
  { name := n
    clientAddress := ""
    propertyAddress := ""
    serviceType := "Unknown"
    dateSigned := ""
    datePurchase := ""
    email := ""
    notes := ""
    clientState := "Unknown"
    propertyState := "Unknown"
    hasClientLocation := false
    hasPropertyLocation := false
    mapDisplayType := "skip"
    year := none
    clientCoords := none
    propertyCoords := none
    isInterstate := false }

/-- Concrete multi-year outcome: 2022 and 2023 succeed with one distinct
record each, 2024 and 2025 succeed empty. -/
def sampleOutcome : String → Option (List GeoRecord) :=
  fun y =>
    if y = "2022" then some [mkSampleRec "A"]
    else if y = "2023" then some [mkSampleRec "B"] else some []

/-- Concrete multi-year outcome in which 2023's fetch fails and the other
years succeed with one record each named after the year. -/
def sampleOutcomeFail : String → Option (List GeoRecord) :=
  fun y => if y = "2023" then none else some [mkSampleRec y]

/-- A completion order in which 2023 finishes before 2022. -/
def sampleOrder : List String :=
  ["2023", "2022", "2024", "2025"]

/-- Raw row whose client address is the single character `","`: present and
not the sentinel, yet cleaned to the empty string. -/
def rowComma : RawRow :=
  ⟨"A", ",", "", "", "", "", "", ""⟩

/-- Raw row with an ordinary New South Wales client address. -/
def rowNSW : RawRow :=
  ⟨"B", "1 George St NSW", "", "", "", "", "", ""⟩

/-- The processed record obtained from `rowNSW` with an unavailable
geocoding service. -/
def recNSW : GeoRecord :=
  (processData true (fun _ => none) none ⟨[], none⟩ [rowNSW]).1.headD (mkSampleRec "")

/-- Raw-data table for the single-year loader: year 2022 has the one-row
file `[rowNSW]`, every other year's fetch fails. -/
def sampleRawOf : String → Option (List RawRow) :=
  fun y => if y = "2022" then some [rowNSW] else none

/-- Concrete result of an uncached single-year load of 2022 over
`sampleRawOf` with geocoding unavailable. -/
def res2022 : List GeoRecord × GeoState × List (String × List GeoRecord) :=
  (loadYearData false (fun _ => none) ⟨[], none⟩ [] sampleRawOf "2022").getD
    ([], ⟨[], none⟩, [])

/-- The single record of `res2022`. -/
def recNSW2022 : GeoRecord :=
  res2022.1.headD (mkSampleRec "")

/-- Records pushed onto `combined` are the year-stamped records of each year
in completion order, the failed years contributing nothing. -/
theorem loadAllYearsData_combined (outcome : String → Option (List GeoRecord)) :
    ∀ order : List String,
      (loadAllYearsData outcome order).combined
        = (order.map (fun y => ((outcome y).getD []).map (stampYear y))).flatten := by
  intro order
  induction order with
  | nil => rfl
  | cons y rest ih =>
    cases h : outcome y <;> simp [loadAllYearsData, h, ih]

/-- The `byYear` mapping pairs each year, in completion order, with its
loaded records, or with `[]` when the year failed. -/
theorem loadAllYearsData_byYear (outcome : String → Option (List GeoRecord)) :
    ∀ order : List String,
      (loadAllYearsData outcome order).byYear
        = order.map (fun y => (y, (outcome y).getD [])) := by
  intro order
  induction order with
  | nil => rfl
  | cons y rest ih =>
    cases h : outcome y <;> simp [loadAllYearsData, h, ih]

/-- Looking up a present key in a keyed map of a list yields its image. -/
theorem lookup_map_self {α : Type} (g : String → α) :
    ∀ (l : List String) (y : String), y ∈ l →
      (l.map (fun z => (z, g z))).lookup y = some (g y) := by
  intro l
  induction l with
  | nil => intro y hy; cases hy
  | cons a rest ih =>
    intro y hy
    by_cases hya : y = a
    · subst hya
      simp [List.lookup]
    · rcases List.mem_cons.mp hy with h | h
      · exact absurd h hya
      · have hba : (y == a) = false := beq_eq_false_iff_ne.mpr hya
        simpa [List.lookup, hba] using ih y h

/-- C3, counterexample: with 2023 completing before 2022, `combined` is not
the concatenation in the fixed year order — the claim's
independence-of-completion-order is false. `sampleOrder` is a permutation of
the fixed year list, yet `combined` comes out as 2023's records before
2022's. -/
theorem C3_counterexample :
    sampleOrder.Perm fixedYears ∧
    (loadAllYearsData sampleOutcome sampleOrder).combined ≠
      (fixedYears.map (fun y => ((sampleOutcome y).getD []).map (stampYear y))).flatten := by
  constructor
  · decide
  · decide

/-- C3, amended: for every multi-year load, `combined` is the concatenation
of the years' record blocks in completion order (failed years contributing
nothing), each record stamped with its origin year; it equals the fixed-year
order concatenation only when completion order happens to agree with it. -/
theorem C3_combined_completion_order
    (outcome : String → Option (List GeoRecord)) (order : List String) :
    (loadAllYearsData outcome order).combined
      = (order.map (fun y => ((outcome y).getD []).map (stampYear y))).flatten :=
  loadAllYearsData_combined outcome order

/-- C4: in a multi-year load over any completion order of the fixed years, a
failed year maps to the empty sequence in `byYear`, every successful year's
records are present unchanged under their year key, and `combined` consists
exactly of the successful years' stamped records (a permutation of their
fixed-order concatenation); the load is total, so no failure, not even of
all years, raises an error. -/
theorem C4_partial_failure
    (outcome : String → Option (List GeoRecord)) (order : List String)
    (horder : order.Perm fixedYears) :
    (∀ y ∈ order, outcome y = none →
        (loadAllYearsData outcome order).byYear.lookup y = some []) ∧
    (∀ y d, y ∈ order → outcome y = some d →
        (loadAllYearsData outcome order).byYear.lookup y = some d) ∧
    ((loadAllYearsData outcome order).combined).Perm
      ((fixedYears.map (fun y => ((outcome y).getD []).map (stampYear y))).flatten) := by
  refine ⟨?_, ?_, ?_⟩
  · intro y hy hfail
    rw [loadAllYearsData_byYear, lookup_map_self _ order y hy, hfail]
    rfl
  · intro y d hy hok
    rw [loadAllYearsData_byYear, lookup_map_self _ order y hy, hok]
    rfl
  · rw [loadAllYearsData_combined]
    exact (horder.map _).flatten

/-- C4, witness: with 2023 failing and completion order `sampleOrder`,
`byYear` maps 2023 to `[]` and 2022 to its loaded records. -/
theorem C4_partial_failure_witness :
    (loadAllYearsData sampleOutcomeFail sampleOrder).byYear.lookup "2023" = some [] ∧
    (loadAllYearsData sampleOutcomeFail sampleOrder).byYear.lookup "2022"
      = some [mkSampleRec "2022"] := by
  have h := C4_partial_failure sampleOutcomeFail sampleOrder (by decide)
  exact ⟨h.1 "2023" (by decide) (by decide), h.2.1 "2022" [mkSampleRec "2022"] (by decide) (by decide)⟩

/-- C10: every multi-year load attempts exactly the four fixed years; in any
completion order the `byYear` keys are exactly `"2022"`, `"2023"`, `"2024"`,
`"2025"`, since the year list is hard-coded and no caller-supplied list is
consulted. -/
theorem C10_fixed_year_keys
    (outcome : String → Option (List GeoRecord)) (order : List String)
    (horder : order.Perm fixedYears) :
    ((loadAllYearsData outcome order).byYear.map Prod.fst).Perm
      ["2022", "2023", "2024", "2025"] := by
  rw [loadAllYearsData_byYear]
  have h2 : (order.map (fun y => (y, (outcome y).getD []))).map Prod.fst = order := by
    simp [List.map_map, Function.comp_def]
  rw [h2]
  exact horder

/-- C10, witness: concrete instance at `sampleOutcome` and `sampleOrder`. -/
theorem C10_fixed_year_keys_witness :
    ((loadAllYearsData sampleOutcome sampleOrder).byYear.map Prod.fst).Perm
      ["2022", "2023", "2024", "2025"] :=
  C10_fixed_year_keys sampleOutcome sampleOrder (by decide)

/-- Every record produced by the geocoding loop arises from one input record
processed by `geocodeRow` at some intermediate loader state. -/
theorem mem_addGeocoding {g : Bool} {svc : String → Option Coord} :
    ∀ (rows : List CleanRecord) (st : GeoState) (rec : GeoRecord),
      rec ∈ (addGeocoding g svc st rows).1 →
      ∃ row ∈ rows, ∃ st0, rec = (geocodeRow g svc st0 row).1 := by
  intro rows
  induction rows with
  | nil => intro st rec h; simp [addGeocoding] at h
  | cons row rest ih =>
    intro st rec h
    simp only [addGeocoding] at h
    rcases List.mem_cons.mp h with h | h
    · exact ⟨row, List.mem_cons_self _ _, st, h⟩
    · obtain ⟨row2, hrow2, st0, hrec⟩ := ih _ _ h
      exact ⟨row2, List.mem_cons_of_mem _ hrow2, st0, hrec⟩

/-- The generic `"Unknown"` centroid is present in the fallback table. -/
theorem lookup_unknown_fallback :
    fallbackCoords.lookup "Unknown" = some ⟨-252744, 1337751⟩ := by decide

/-- JS `a || b` with a truthy right operand is truthy. -/
theorem jsOr_some_isSome (a : Option Coord) (v : Coord) :
    (jsOr a (some v)).isSome = true := by
  cases a <;> rfl

/-- C1, counterexample: the raw client address `","` is present, non-blank
and not the sentinel, so the record is flagged `hasClientLocation = true`;
but `cleanAddress` collapses it to `""`, the geocoding branch is skipped,
and the processed record's `clientCoords` is `none` — a record flagged as
having an address does end up with a missing coordinate. -/
theorem C1_counterexample :
    (processData true (fun _ => none) none ⟨[], none⟩ [rowComma]).1.map
      (fun r => (r.hasClientLocation, r.clientCoords)) = [(true, none)] := by
  decide

/-- C1, amended: for every processed record, if `hasClientLocation` is true
and the cleaned `clientAddress` is non-empty then `clientCoords` is some
coordinate (resolved, cached, or a fallback centroid), and likewise for the
property side; the flag alone does not suffice, because cleaning can turn a
present raw address (such as `","`) into the empty string, which skips
geocoding entirely. -/
theorem C1_amended (google : Bool) (svc : String → Option Coord) (st : GeoState)
    (year : Option String) (rawData : List RawRow) (rec : GeoRecord)
    (hmem : rec ∈ (processData google svc year st rawData).1) :
    (rec.hasClientLocation = true → rec.clientAddress ≠ "" →
      rec.clientCoords.isSome = true) ∧
    (rec.hasPropertyLocation = true → rec.propertyAddress ≠ "" →
      rec.propertyCoords.isSome = true) := by
  rw [processData] at hmem
  obtain ⟨row, hrow, st0, hrec⟩ := mem_addGeocoding _ _ _ hmem
  subst hrec
  constructor
  · intro h1 h2
    simp only [geocodeRow] at h1 h2 ⊢
    rw [lookup_unknown_fallback]
    simp [h1, h2]
    exact jsOr_some_isSome _ _
  · intro h1 h2
    simp only [geocodeRow] at h1 h2 ⊢
    rw [lookup_unknown_fallback]
    simp [h1, h2]
    exact jsOr_some_isSome _ _

/-- C1, witness: concrete instance of the amended claim on a record with an
ordinary New South Wales address and an unavailable geocoding service. -/
theorem C1_amended_witness :
    recNSW ∈ (processData true (fun _ => none) none ⟨[], none⟩ [rowNSW]).1 ∧
    recNSW.clientCoords.isSome = true :=
  ⟨by decide,
    (C1_amended true (fun _ => none) ⟨[], none⟩ none [rowNSW] recNSW (by decide)).1
      (by decide) (by decide)⟩

/-- After `Map.set`, looking up the written key yields the written value. -/
theorem lookup_mapSet_self {α : Type} :
    ∀ (m : List (String × α)) (k : String) (v : α),
      (mapSet m k v).lookup k = some v := by
  intro m k v
  induction m with
  | nil => simp [mapSet, List.lookup]
  | cons p rest ih =>
    obtain ⟨k1, v1⟩ := p
    by_cases h : k1 = k
    · subst h
      simp [mapSet, List.lookup]
    · have hb : (k == k1) = false := beq_eq_false_iff_ne.mpr (Ne.symm h)
      simp [mapSet, h, List.lookup, hb, ih]

/-- C2, counterexample: with an empty cache and a service that finds no
result for address `"A"`, `geocodeAddress` resolves `null` but still writes
the entry `("a", null)` into the cache (and persists it); a second call for
the same address is a cache hit and does not invoke the external service
again. The claim's "cache left unchanged, later call retries" is false. -/
theorem C2_counterexample :
    (geocodeAddress true (fun _ => none) ⟨[], none⟩ "A").result = none ∧
    (geocodeAddress true (fun _ => none) ⟨[], none⟩ "A").state.geocodeCache
      = [("a", none)] ∧
    (geocodeAddress true (fun _ => none)
        (geocodeAddress true (fun _ => none) ⟨[], none⟩ "A").state "A").invoked = false := by
  refine ⟨by decide, by decide, by decide⟩

/-- C2, amended: on a cache miss for a non-empty address, `geocodeAddress`
invokes the external service exactly once and stores whatever the service
returned — a coordinate on success, `null` on failure or no result — in the
cache, persisting it; every later call for the same address is then a cache
hit that returns that stored outcome without invoking the service and
without changing the state. Only successful lookups being cached is false:
failures are cached too, so no later retry occurs. -/
theorem C2_amended (svc : String → Option Coord) (st : GeoState) (address : String)
    (haddr : address ≠ "")
    (hmiss : st.geocodeCache.lookup (jsToLower address) = none) :
    (geocodeAddress true svc st address).result = svc address ∧
    (geocodeAddress true svc st address).invoked = true ∧
    (geocodeAddress true svc st address).state.geocodeCache
      = mapSet st.geocodeCache (jsToLower address) (svc address) ∧
    (geocodeAddress true svc st address).state.storage
      = some (mapSet st.geocodeCache (jsToLower address) (svc address)) ∧
    (∀ svc2 : String → Option Coord,
      (geocodeAddress true svc2 (geocodeAddress true svc st address).state address).invoked
          = false ∧
      (geocodeAddress true svc2 (geocodeAddress true svc st address).state address).result
          = svc address ∧
      (geocodeAddress true svc2 (geocodeAddress true svc st address).state address).state
          = (geocodeAddress true svc st address).state) := by
  refine ⟨?_, ?_, ?_, ?_, ?_⟩ <;>
    simp [geocodeAddress, haddr, hmiss, saveGeocodeCache, lookup_mapSet_self]

/-- C2, witness: concrete instance of the amended claim at an empty cache, a
failing service and address `"A"`. -/
theorem C2_amended_witness :
    (geocodeAddress true (fun _ => none) ⟨[], none⟩ "A").invoked = true ∧
    (geocodeAddress true (fun _ => none) ⟨[], none⟩ "A").state.geocodeCache
      = mapSet ([] : List (String × Option Coord)) (jsToLower "A") none := by
  have h := C2_amended (fun _ => none) ⟨[], none⟩ "A" (by decide) (by decide)
  exact ⟨h.2.1, h.2.2.1⟩

/-- C8, counterexample: a fresh single-year load of 2022 (not through the
multi-year aggregator) yields a record whose `year` is `some "2022"`, not
`none`: `loadYearData` passes the concrete year into `processData`, which
stamps it on every record, so single-year records do carry a year of
origin. -/
theorem C8_counterexample :
    Option.map (fun t => t.1.map (fun r => r.year))
        (loadYearData false (fun _ => none) ⟨[], none⟩ [] sampleRawOf "2022")
      = some [some "2022"] := by
  decide

/-- C8, amended: the `year` field is set on every record of every fresh
(uncached) single-year load — `loadYearData` forwards its year argument to
`processData`, whose cleaning map stamps it on each record; `year` would be
`none` only for a `processData` call without a year argument, which no
loader path performs. (The multi-year path re-stamps the same year on its
`combined` copies.) -/
theorem C8_amended (google : Bool) (svc : String → Option Coord) (st : GeoState)
    (cache : List (String × List GeoRecord)) (rawOf : String → Option (List RawRow))
    (year : String)
    (res : List GeoRecord × GeoState × List (String × List GeoRecord))
    (hmiss : cache.lookup year = none)
    (hres : loadYearData google svc st cache rawOf year = some res) :
    ∀ rec ∈ res.1, rec.year = some year := by
  intro rec hrec
  cases hraw : rawOf year with
  | none =>
    simp [loadYearData, hmiss, hraw] at hres
  | some raw =>
    simp only [loadYearData, hmiss, hraw] at hres
    injection hres with hres2
    subst hres2
    rw [processData] at hrec
    obtain ⟨row, hrow, st0, hrec2⟩ := mem_addGeocoding _ _ _ hrec
    subst hrec2
    obtain ⟨r0, hr0, hrow2⟩ := List.mem_map.mp hrow
    subst hrow2
    rfl

/-- C8, witness: concrete instance at the uncached 2022 load of
`sampleRawOf`; the produced record carries `year = some "2022"`. -/
theorem C8_amended_witness : recNSW2022.year = some "2022" :=
  C8_amended false (fun _ => none) ⟨[], none⟩ [] sampleRawOf "2022" res2022
    (by decide) (by decide) recNSW2022 (by decide)

/-- Setting an absent key appends the entry at the end. -/
theorem mapSet_of_not_mem {α : Type} :
    ∀ (m : List (String × α)) (k : String) (v : α), k ∉ m.map Prod.fst →
      mapSet m k v = m ++ [(k, v)] := by
  intro m k v hk
  induction m with
  | nil => rfl
  | cons p rest ih =>
    obtain ⟨k1, v1⟩ := p
    simp only [List.map_cons, List.mem_cons, not_or] at hk
    have h1 : ¬ k1 = k := fun h => hk.1 h.symm
    simp [mapSet, h1, ih hk.2]

/-- Setting a present key leaves the key list unchanged. -/
theorem keys_mapSet_mem {α : Type} :
    ∀ (m : List (String × α)) (k : String) (v : α), k ∈ m.map Prod.fst →
      (mapSet m k v).map Prod.fst = m.map Prod.fst := by
  intro m k v hk
  induction m with
  | nil => cases hk
  | cons p rest ih =>
    obtain ⟨k1, v1⟩ := p
    by_cases h : k1 = k
    · subst h
      simp [mapSet]
    · simp only [List.map_cons, List.mem_cons] at hk
      rcases hk with hk | hk
      · exact absurd hk.symm h
      · simp [mapSet, h, ih hk]

/-- `Map.set` preserves distinctness of the keys. -/
theorem nodup_keys_mapSet {α : Type} (m : List (String × α)) (k : String) (v : α)
    (hnd : (m.map Prod.fst).Nodup) : ((mapSet m k v).map Prod.fst).Nodup := by
  by_cases hk : k ∈ m.map Prod.fst
  · rw [keys_mapSet_mem m k v hk]
    exact hnd
  · rw [mapSet_of_not_mem m k v hk]
    simp [List.nodup_append, hnd, hk]

/-- Rebuilding a map from entries with distinct keys reproduces the entry
list: the generalized fold invariant. -/
theorem ofEntries_aux {α : Type} :
    ∀ (l m : List (String × α)), (l.map Prod.fst).Nodup →
      (∀ k ∈ l.map Prod.fst, k ∉ m.map Prod.fst) →
      l.foldl (fun acc p => mapSet acc p.1 p.2) m = m ++ l := by
  intro l
  induction l with
  | nil => intro m _ _; simp
  | cons p rest ih =>
    intro m hnd hdisj
    obtain ⟨k, v⟩ := p
    simp only [List.map_cons, List.nodup_cons] at hnd
    have hkm : k ∉ m.map Prod.fst := hdisj k (by simp)
    have hstep : mapSet m k v = m ++ [(k, v)] := mapSet_of_not_mem m k v hkm
    have hdisj2 : ∀ q ∈ rest.map Prod.fst, q ∉ (m ++ [(k, v)]).map Prod.fst := by
      intro q hq
      simp only [List.map_append, List.mem_append, List.map_cons, List.map_nil,
        List.mem_singleton, not_or]
      exact ⟨hdisj q (by simp [hq]), fun h => hnd.1 (h ▸ hq)⟩
    calc (rest.foldl (fun acc p => mapSet acc p.1 p.2) (mapSet m k v))
        = (m ++ [(k, v)]) ++ rest := by rw [hstep]; exact ih (m ++ [(k, v)]) hnd.2 hdisj2
      _ = m ++ (k, v) :: rest := by simp

/-- `new Map(entries)` on an entry list with distinct keys is that list. -/
theorem ofEntries_self {α : Type} (l : List (String × α))
    (hnd : (l.map Prod.fst).Nodup) : ofEntries l = l := by
  have h := ofEntries_aux l [] hnd (by simp)
  simpa [ofEntries] using h

/-- C9: the geocode cache round-trips through durable storage — after
writing `k → c` into a cache with distinct keys and persisting, a fresh
load yields a mapping in which `k` is bound to `c`. -/
theorem C9_roundtrip (cache : List (String × Option Coord)) (k : String) (c : Coord)
    (hnd : (cache.map Prod.fst).Nodup) :
    (loadGeocodeCache (saveGeocodeCache (mapSet cache k (some c)))).lookup k
      = some (some c) := by
  show (ofEntries (mapSet cache k (some c))).lookup k = some (some c)
  rw [ofEntries_self _ (nodup_keys_mapSet cache k (some c) hnd)]
  exact lookup_mapSet_self cache k (some c)

/-- C9, witness: concrete round-trip through a one-entry cache. -/
theorem C9_roundtrip_witness :
    (loadGeocodeCache (saveGeocodeCache
        (mapSet [("x", (none : Option Coord))] "a" (some ⟨1, 2⟩)))).lookup "a"
      = some (some ⟨1, 2⟩) :=
  C9_roundtrip [("x", none)] "a" ⟨1, 2⟩ (by decide)

/-- `find?` returns the element at the first index satisfying the
predicate. -/
theorem find?_first_of (p : String → Bool) :
    ∀ (l : List String) (i : Nat), i < l.length → p (l.getD i "") = true →
      (∀ j, j < i → p (l.getD j "") = false) →
      l.find? p = some (l.getD i "") := by
  intro l
  induction l with
  | nil =>
    intro i hi
    exact absurd hi (Nat.not_lt_zero i)
  | cons x xs ih =>
    intro i hi hp hj
    cases i with
    | zero =>
      have hp2 : p x = true := hp
      show (x :: xs).find? p = some ((x :: xs).getD 0 "")
      simp [List.find?, hp2]
    | succ n =>
      have hx : p x = false := hj 0 (Nat.succ_pos n)
      have hn : n < xs.length := Nat.lt_of_succ_lt_succ hi
      have hp2 : p (xs.getD n "") = true := hp
      have hj2 : ∀ j, j < n → p (xs.getD j "") = false :=
        fun j h2 => hj (j + 1) (Nat.succ_lt_succ h2)
      simp only [List.find?, hx]
      exact ih n hn hp2 hj2

/-- C5: `extractState` performs a case-insensitive substring search in the
fixed enumeration order NSW, QLD, VIC, SA, WA, TAS, NT, ACT and returns the
first enumerated abbreviation occurring anywhere in the address — even when
a different region token occurs earlier in the text; when none occurs it
returns `"Singapore"` if "singapore" occurs, then `"Dubai"` if "dubai"
occurs, else `"Unknown"`. -/
theorem C5_classify (address : String) :
    (∀ i, i < stateKeys.length →
        containsSub (stateKeys.getD i "") (jsToUpper address) = true →
        (∀ j, j < i → containsSub (stateKeys.getD j "") (jsToUpper address) = false) →
        extractState address = stateKeys.getD i "") ∧
    ((∀ k ∈ stateKeys, containsSub k (jsToUpper address) = false) →
      (containsSub "singapore" (jsToLower address) = true →
        extractState address = "Singapore") ∧
      (containsSub "singapore" (jsToLower address) = false →
        containsSub "dubai" (jsToLower address) = true →
        extractState address = "Dubai") ∧
      (containsSub "singapore" (jsToLower address) = false →
        containsSub "dubai" (jsToLower address) = false →
        extractState address = "Unknown")) := by
  by_cases haddr : address = ""
  · subst haddr
    constructor
    · intro i hi hp hj
      exfalso
      have hlen : i < 8 := by simpa [stateKeys] using hi
      interval_cases i <;> revert hp <;> decide
    · intro hk
      refine ⟨?_, ?_, ?_⟩
      · intro h1
        exact absurd h1 (by decide)
      · intro h1 h2
        exact absurd h2 (by decide)
      · intro h1 h2
        decide
  · constructor
    · intro i hi hp hj
      unfold extractState
      rw [if_neg haddr, find?_first_of _ stateKeys i hi hp hj]
    · intro hk
      have hfind : stateKeys.find? (fun k => containsSub k (jsToUpper address)) = none :=
        List.find?_eq_none.mpr (fun x hx => by simp [hk x hx])
      refine ⟨?_, ?_, ?_⟩
      · intro h1
        unfold extractState
        rw [if_neg haddr, hfind]
        simp [h1]
      · intro h1 h2
        unfold extractState
        rw [if_neg haddr, hfind]
        simp [h1, h2]
      · intro h1 h2
        unfold extractState
        rw [if_neg haddr, hfind]
        simp [h1, h2]

/-- C5, witness: an address containing both a VIC and a QLD token resolves
to `"QLD"`, the earlier key in the fixed enumeration, although "VICTORIA"
occurs earlier in the text. -/
theorem C5_classify_witness : extractState "VICTORIA ST QLD" = "QLD" := by
  have h := (C5_classify "VICTORIA ST QLD").1 1 (by decide) (by decide)
    (by intro j hj; interval_cases j; decide)
  exact h.trans (by decide)

/-- Folding `pickLater` from a seed computes the first maximum: the seed
wins unless some later element is strictly greater. -/
theorem foldl_pickLater_eq :
    ∀ (ys : List (String × RegionStat)) (x : String × RegionStat),
      ys.foldl pickLater x
        = (match firstMax? ys with
            | none => x
            | some r => if totalOf x < totalOf r then r else x) := by
  intro ys
  induction ys with
  | nil => intro x; rfl
  | cons z zs ih =>
    intro x
    show zs.foldl pickLater (pickLater x z) = _
    rw [ih (pickLater x z)]
    rw [show firstMax? (z :: zs) = some (zs.foldl pickLater z) from rfl]
    rw [ih z]
    cases hfm : firstMax? zs with
    | none =>
      simp only [pickLater]
    | some r =>
      simp only [pickLater]
      split_ifs <;> first | rfl | omega

/-- Inserting preserves emptiness behaviour: the head of `insertDesc x l` is
`x` or the old head, whichever ranks at least as high, `x` winning ties. -/
theorem head?_insertDesc (x : String × RegionStat) :
    ∀ l : List (String × RegionStat),
      (insertDesc x l).head?
        = some (match l.head? with
                | none => x
                | some y => if totalOf y ≤ totalOf x then x else y) := by
  intro l
  cases l with
  | nil => rfl
  | cons y ys =>
    simp only [insertDesc, List.head?]
    split_ifs <;> rfl

/-- `insertDesc` grows the length by one. -/
theorem insertDesc_length (x : String × RegionStat) :
    ∀ l : List (String × RegionStat), (insertDesc x l).length = l.length + 1 := by
  intro l
  induction l with
  | nil => rfl
  | cons y ys ih =>
    simp only [insertDesc]
    split_ifs <;> simp [ih]

/-- The stable sort preserves the length. -/
theorem sortByTotalDesc_length (l : List (String × RegionStat)) :
    (sortByTotalDesc l).length = l.length := by
  induction l with
  | nil => rfl
  | cons x xs ih =>
    show (insertDesc x (sortByTotalDesc xs)).length = xs.length + 1
    rw [insertDesc_length, ih]

/-- The head of the descending stable sort is the first maximal entry. -/
theorem head?_sortByTotalDesc :
    ∀ l : List (String × RegionStat), (sortByTotalDesc l).head? = firstMax? l := by
  intro l
  induction l with
  | nil => rfl
  | cons x xs ih =>
    show (insertDesc x (sortByTotalDesc xs)).head? = _
    rw [head?_insertDesc]
    cases hxs : (sortByTotalDesc xs).head? with
    | none =>
      have hnil : sortByTotalDesc xs = [] := List.head?_eq_none_iff.mp hxs
      have hxsnil : xs = [] := by
        have hlen := sortByTotalDesc_length xs
        rw [hnil] at hlen
        cases xs with
        | nil => rfl
        | cons a as => simp at hlen
      subst hxsnil
      rfl
    | some w =>
      rw [hxs] at ih
      have hfm : firstMax? xs = some w := ih.symm
      rw [show firstMax? (x :: xs) = some (xs.foldl pickLater x) from rfl,
        foldl_pickLater_eq xs x, hfm]
      show some (if totalOf w ≤ totalOf x then x else w)
        = some (if totalOf x < totalOf w then w else x)
      split_ifs <;> first | rfl | omega

/-- The embedded `topRegion` agrees with the specification-side first-seen
maximum selection on every entry list. -/
theorem topRegion_eq_spec (stats : List (String × RegionStat)) :
    topRegion stats = specTopRegion stats := by
  unfold topRegion specTopRegion
  rw [head?_sortByTotalDesc]

/-- C6: `topRegion` is the region whose `clients + properties` count in
`regionStats` is maximal, ties resolved to the region first inserted into
`regionStats` (first seen in record order, by construction of
`buildRegionStats`), and `"N/A"` when `regionStats` is empty — the
stable-sort-then-head computation equals the specification's first-seen
maximum selection. -/
theorem C6_topRegion (data : List GeoRecord) :
    (generateAnalytics data).topRegion
      = specTopRegion ((generateAnalytics data).regionStats) := by
  show topRegion (buildRegionStats data) = specTopRegion (buildRegionStats data)
  exact topRegion_eq_spec _

/-- The JS rate comparison, unfolded into the cases of the amended claim:
true iff the denominator is non-zero and the rounded rate exceeds the bound,
or the denominator is zero with a non-zero numerator (the `Infinity` case). -/
theorem rateGtB_eq_or (num den : Nat) (bound : ℚ) :
    rateGtB num den bound
      = (decide (den ≠ 0) && decide (rate1 num den > bound)
          || decide (den = 0) && decide (num ≠ 0)) := by
  by_cases h : den = 0 <;> simp [rateGtB, h]

/-- C7, counterexample: with `totalProperties = 0` and `interstateSales = 1`
the JS rate is `Infinity`, `toFixed(1)` renders it `"Infinity"`, and
`"Infinity" > 30` holds, so the interstate insight IS emitted — the claim's
"`totalProperties = 0` is treated as rate 0, no insight" is false. -/
theorem C7_counterexample :
    (generateInsights [] 0 0 1 [] []).contains interstateInsight = true := by
  decide

/-- C7, amended: the interstate insight is emitted exactly when either
`totalProperties ≠ 0` and the rate `interstateSales / totalProperties * 100`
rounded to one decimal exceeds 30, or `totalProperties = 0` and
`interstateSales ≠ 0` (the rate is then `Infinity`, which exceeds 30); with
10 properties it is emitted at 4 interstate sales (40.0%) and not at 2
(20.0%); only the `0 / 0` case yields `NaN`, against which the comparison is
false, so with both counters zero no insight is emitted. -/
theorem C7_interstate_rate (data : List GeoRecord) (tc tp isales : Nat)
    (sts : List (String × Nat)) (rsts : List (String × RegionStat)) :
    ((generateInsights data tc tp isales sts rsts).contains interstateInsight
        = (decide (tp ≠ 0) && decide (rate1 isales tp > 30)
            || decide (tp = 0) && decide (isales ≠ 0))) ∧
    (generateInsights [] 0 10 4 [] []).contains interstateInsight = true ∧
    (generateInsights [] 0 10 2 [] []).contains interstateInsight = false ∧
    (generateInsights [] 0 0 0 [] []).contains interstateInsight = false := by
  refine ⟨?_, ?_, ?_, ?_⟩
  · rw [← rateGtB_eq_or]
    cases hb : rateGtB isales tp 30 with
    | true =>
      simp [generateInsights, hb]
    | false =>
      simp only [generateInsights, hb, Bool.false_eq_true, if_false]
      split_ifs <;> rfl
  · have hb : rateGtB 4 10 30 = true := by
      have h : rate1 4 10 > 30 := by norm_num [rate1]
      simp [rateGtB, h]
    simp [generateInsights, hb]
  · have hb : rateGtB 2 10 30 = false := by
      have h : ¬(rate1 2 10 > 30) := by norm_num [rate1]
      simp [rateGtB, h]
    simp only [generateInsights, hb, Bool.false_eq_true, if_false]
    split_ifs <;> rfl
  · decide

example : cleanAddress "," = "" := by decide

example : cleanAddress " Line1\nLine2, , " = "Line1, Line2" := by decide

example : extractState "123 X St, Sydney NSW 2000" = "NSW" := by decide

example : extractState "Blah Singapore Rd" = "Singapore" := by decide

example : extractState "no markers here" = "Unknown" := by decide

example : topRegion [("NSW", ⟨1, 0⟩), ("QLD", ⟨0, 1⟩)] = "NSW" := by decide

example : topRegion [] = "N/A" := by decide

example : determineMapDisplayType true false = "client-only" := by decide
